import Mathlib

/-!
Verification development for the trading-course repository:
a shallow embedding of the per-bar signal policy (`agent/agent.py`)
and of the result-reduction helpers (`runner.py`), with theorems
settling the specification claims against the embedded code.

Python floats on the values appearing in these claims are modelled
as exact rationals, with an explicit NaN marker in the value domain
used by the result reducer; Python exceptions are modelled with
`Except String`.
-/

/-- A Python value as seen by the result reducer in `runner.py`:
`None`, booleans, ints, finite floats (as exact rationals), the float
NaN, and (ordered) dicts with string keys, which is what the backtest
analyzers hand back. -/
inductive PyVal where
  | vnone : PyVal
  | vbool : Bool → PyVal
  | vint : Int → PyVal
  | vfloat : ℚ → PyVal
  | vnan : PyVal
  | vdict : List (String × PyVal) → PyVal

/-- `val is None` test used inside `safe_get`. -/
def PyVal.isNone : PyVal → Bool
  | .vnone => true
  | _ => false

/-- `isinstance(val, float) and math.isnan(val)` test used inside `safe_get`. -/
def PyVal.isNan : PyVal → Bool
  | .vnan => true
  | _ => false

/-- One traversal step of `safe_get`: `val.get(k)` when `val` is a dict
(`None` when the key is missing), `getattr(val, k, None)` otherwise —
which yields `None` for every non-dict value in this domain. -/
def lookStep : PyVal → String → PyVal
  | .vdict l, k => ((l.lookup k).getD .vnone)
  | _, _ => .vnone

/-- The `for k in keys` loop body of `safe_get` from `runner.py`:
after each step, a `None` value short-circuits to the default; after the
loop, a NaN float is replaced by the default.  Every primitive used here
(`dict.get`, `getattr` with a default) is total, so the embedded loop is a
total function: the `try/except` of the source can never fire. -/
def safe_getLoop (default : PyVal) : PyVal → List String → PyVal
  | v, [] => if v.isNan then default else v
  | v, k :: rest =>
    let v2 := lookStep v k
    if v2.isNone then default else safe_getLoop default v2 rest

/-- `safe_get(analysis, keys, default)` from `runner.py` (keys already in
list form, as at every call site). -/
def safe_get (analysis : PyVal) (keys : List String) (default : PyVal) : PyVal :=
  if analysis.isNone then default else safe_getLoop default analysis keys

/-- Modelled from the spec's description of the lookup: the path is
"broken" when the starting value or any traversed value is `None`
(including a missing key, whose `get` yields `None`), or when the final
value is a NaN float. -/
def pathBad : PyVal → List String → Bool
  | v, [] => v.isNone || v.isNan
  | v, k :: rest => v.isNone || pathBad (lookStep v k) rest

/-- Modelled from the spec's description of the lookup: "the value found
at the end of the path" (junk `None` on broken paths, where it is never
used). -/
def pathVal : PyVal → List String → PyVal
  | v, [] => v
  | v, k :: rest => pathVal (lookStep v k) rest

/-- Python `val > 0` on a reducer value: `None > 0` and `dict > 0` raise
`TypeError` in Python 3; `nan > 0` is `False`. -/
def pyGt0 : PyVal → Except String Bool
  | .vint n => .ok (0 < n)
  | .vfloat q => .ok (0 < q)
  | .vbool b => .ok b
  | .vnan => .ok false
  | .vnone => .error "TypeError"
  | .vdict _ => .error "TypeError"

/-- Python `val != 0` on a reducer value: `None != 0` is `True`,
`nan != 0` is `True`, a dict is never equal to `0`. -/
def pyNe0 : PyVal → Bool
  | .vint n => n != 0
  | .vfloat q => q != 0
  | .vbool b => b
  | .vnan => true
  | .vnone => true
  | .vdict _ => true

/-- A numeric Python value: a finite number or NaN. -/
inductive PyNum where
  | fin : ℚ → PyNum
  | nan : PyNum

/-- Numeric coercion used by arithmetic: ints, floats and bools are
numbers; `None` and dicts are not. -/
def PyVal.toNum : PyVal → Option PyNum
  | .vint n => some (.fin n)
  | .vfloat q => some (.fin q)
  | .vbool b => some (.fin (if b then 1 else 0))
  | .vnan => some .nan
  | _ => none

/-- Python true division `a / b` on reducer values: `TypeError` on
non-numbers, `ZeroDivisionError` on a zero denominator (also for a NaN
numerator), NaN when either finite-division operand is NaN. -/
def pyDiv (a b : PyVal) : Except String PyVal :=
  match a.toNum, b.toNum with
  | some x, some (.fin y) =>
    if y = 0 then .error "ZeroDivisionError"
    else
      match x with
      | .fin q => .ok (.vfloat (q / y))
      | .nan => .ok .vnan
  | some _, some .nan => .ok .vnan
  | _, _ => .error "TypeError"

/-- Python `abs` on reducer values. -/
def pyAbs : PyVal → Except String PyVal
  | .vint n => .ok (.vint |n|)
  | .vfloat q => .ok (.vfloat |q|)
  | .vbool b => .ok (.vint (if b then 1 else 0))
  | .vnan => .ok .vnan
  | _ => .error "TypeError"

/-- Python `val * 100` on reducer values. -/
def pyMul100 : PyVal → Except String PyVal
  | .vint n => .ok (.vint (n * 100))
  | .vfloat q => .ok (.vfloat (q * 100))
  | .vbool b => .ok (.vint (if b then 100 else 0))
  | .vnan => .ok .vnan
  | _ => .error "TypeError"

/-- The `win_rate_pct` entry of the result record in `run_backtest`:
`safe_get(ta, ['won','total'], 0) / safe_get(ta, ['total','closed'], 1) * 100
 if safe_get(ta, ['total','closed']) > 0 else 0`.
The guard compares `safe_get` with default `None` against `0`, which is a
Python `TypeError` when `total.closed` is missing or `None`. -/
def win_rate_pct (ta : PyVal) : Except String PyVal := do
  let g ← pyGt0 (safe_get ta ["total", "closed"] .vnone)
  if g then
    let q ← pyDiv (safe_get ta ["won", "total"] (.vint 0))
                  (safe_get ta ["total", "closed"] (.vint 1))
    pyMul100 q
  else
    .ok (.vint 0)

/-- The `profit_factor` entry of the result record in `run_backtest`:
`abs(safe_get(ta, ['won','pnl','total'], 0) / safe_get(ta, ['lost','pnl','total'], 1))
 if safe_get(ta, ['lost', 'pnl5', 'total']) != 0 else None`.
Note the guard queries the key `pnl5`, exactly as the source does. -/
def profit_factor (ta : PyVal) : Except String PyVal :=
  if pyNe0 (safe_get ta ["lost", "pnl5", "total"] .vnone) then do
    let q ← pyDiv (safe_get ta ["won", "pnl", "total"] (.vint 0))
                  (safe_get ta ["lost", "pnl", "total"] (.vint 1))
    pyAbs q
  else
    .ok .vnone

/-- Parameters of the `Agent` strategy (its `params` tuple); `model_name`
only selects the external classifier and is absorbed into the classifier
function itself. -/
structure AgentParams where
  seq_length : Nat
  threshold : ℚ
  position_size : ℚ

/-- An order intent issued by the policy to the broker: `self.close(data=d)`
or `self.buy(data=d, size=size)`, tagged with the instrument index. -/
inductive Intent where
  | closeIntent : Nat → Intent
  | buyIntent : Nat → Int → Intent
deriving DecidableEq

/-- A one-line trade notice printed by a triggered branch, with the
instrument index, the current close, and the confidence. -/
inductive Notice where
  | buyLine : Nat → ℚ → ℚ → Notice
  | sellLine : Nat → ℚ → ℚ → Notice
deriving DecidableEq

/-- Python `int()` on a (float modelled as a) rational: truncation toward
zero. -/
def pyInt (q : ℚ) : Int :=
  if 0 ≤ q then ⌊q⌋ else ⌈q⌉

/-- Round to the nearest integer, ties to even — the rounding used by
fixed-point float formatting. -/
def roundHalfEven (q : ℚ) : Int :=
  if q - ⌊q⌋ < 1 / 2 then ⌊q⌋
  else if 1 / 2 < q - ⌊q⌋ then ⌊q⌋ + 1
  else if ⌊q⌋ % 2 = 0 then ⌊q⌋ else ⌊q⌋ + 1

/-- Left-pad a digit string with zeros to 4 characters. -/
def pad4 (s : String) : String :=
  if s.length < 4 then String.mk (List.replicate (4 - s.length) '0') ++ s else s

/-- Python `f'{r:.4f}'`: fixed 4-decimal rendering of a (rational-modelled)
float. -/
def fmt4 (q : ℚ) : String :=
  let sgn := if q < 0 then "-" else ""
  let n := (roundHalfEven (|q| * 10000)).toNat
  sgn ++ toString (n / 10000) ++ "." ++ pad4 (toString (n % 10000))

/-- The list comprehension computing simple returns in `Agent.next`:
`[recent[i] / recent[i - 1] - 1 if i > 0 else 0 for i in range(len(recent))]`. -/
def pyReturns (recent : List ℚ) : List ℚ :=
  (List.range recent.length).map fun i =>
    if 0 < i then recent.getD i 0 / recent.getD (i - 1) 0 - 1 else 0

/-- The feature string built in `Agent.next`:
`f"Price movements: {...}"` with the space-joined 4-decimal-formatted
returns interpolated. -/
def featureText (rs : List ℚ) : String :=
  "Price movements: " ++ String.intercalate " " (rs.map fmt4)

/-- The Python slice `lookback[-seq_length:]`: the most recent
`seq_length` entries (the whole list when `seq_length` is `0`, since
`-0 == 0` in Python). -/
def pyLastSlice (n : Nat) (l : List ℚ) : List ℚ :=
  if n = 0 then l else l.drop (l.length - n)

/-- The trade-decision `if/elif` at the end of `Agent.next`, for one
instrument: inputs are the broker cash, the instrument index, its current
position size, the current close, the predicted class, the confidence and
the current binding of the function-local variable `size` (`none` when
unbound).  Output: issued intents, printed notices, the new binding of
`size`, and a raised exception if any (`UnboundLocalError` when the
"SELL" branch reads `size` before any binding). -/
def Agent.trade (p : AgentParams) (cash : ℚ) (i : Nat) (position : Int)
    (close0 : ℚ) (pred : Nat) (conf : ℚ) (sv : Option Int) :
    List Intent × List Notice × Option Int × Option String :=
  if position = 0 ∧ pred = 2 ∧ p.threshold < conf then
    let size := pyInt (cash * p.position_size / close0)
    if 0 < size then
      ([.closeIntent i], [.buyLine i close0 conf], some size, none)
    else
      ([], [], some size, none)
  else if position ≠ 0 ∧ pred = 0 ∧ p.threshold < conf then
    match sv with
    | none => ([], [], none, some "UnboundLocalError")
    | some s => ([.buyIntent i s], [.sellLine i close0 conf], some s, none)
  else
    ([], [], sv, none)

/-- Per-instrument data visible to one iteration of the `for` loop in
`Agent.next`: the lookback buffer before this bar, the current close
`d.close[0]`, and the broker position size `self.getposition(d).size`. -/
structure InstData where
  lookback : List ℚ
  close0 : ℚ
  position : Int

/-- Everything one iteration of the loop in `Agent.next` produces: the
grown lookback buffer, the model inference if one was run (feature text
with the classifier's `(pred, conf)`), the issued intents, the printed
notices, the binding of the local `size` afterwards, and a raised
exception if any. -/
structure StepRes where
  lookback : List ℚ
  inference : Option (String × Nat × ℚ)
  intents : List Intent
  notices : List Notice
  sizeVar : Option Int
  err : Option String

/-- One iteration of the `for i, d in enumerate(self.datas)` loop of
`Agent.next`: append the close, skip while the buffer is short, otherwise
run the classifier on the rendered returns and apply the trade decision.
`cls` is the external classifier: feature text to (predicted class,
confidence of the predicted class). -/
def Agent.nextOne (p : AgentParams) (cls : String → Nat × ℚ) (cash : ℚ)
    (i : Nat) (d : InstData) (sv : Option Int) : StepRes :=
  let lb := d.lookback ++ [d.close0]
  if lb.length < p.seq_length then
    ⟨lb, none, [], [], sv, none⟩
  else
    let ft := featureText (pyReturns (pyLastSlice p.seq_length lb))
    let pc := cls ft
    let t := Agent.trade p cash i d.position d.close0 pc.1 pc.2 sv
    ⟨lb, some (ft, pc), t.1, t.2.1, t.2.2.1, t.2.2.2⟩

/-- Output of one full call of `Agent.next` over all instruments. -/
structure NextOut where
  lookbacks : List (List ℚ)
  intents : List Intent
  err : Option String

/-- The loop of `Agent.next` from instrument index `i` onwards, threading
the binding of the local `size`; a raised exception aborts the loop. -/
def Agent.nextGo (p : AgentParams) (cls : String → Nat × ℚ) (cash : ℚ) :
    Nat → Option Int → List InstData → NextOut
  | _, _, [] => ⟨[], [], none⟩
  | i, sv, d :: ds =>
    let r := Agent.nextOne p cls cash i d sv
    match r.err with
    | some e => ⟨[r.lookback], r.intents, some e⟩
    | none =>
      let rest := Agent.nextGo p cls cash (i + 1) r.sizeVar ds
      ⟨r.lookback :: rest.lookbacks, r.intents ++ rest.intents, rest.err⟩

/-- One full call of `Agent.next`: the loop starts at instrument `0` with
the function-local `size` unbound (Python locals do not survive between
calls of `next`). -/
def Agent.next (p : AgentParams) (cls : String → Nat × ℚ) (cash : ℚ)
    (ds : List InstData) : NextOut :=
  Agent.nextGo p cls cash 0 none ds

/-- Zip the per-instrument lookback buffers with the current closes and
the engine-owned positions into the loop's view of `self.datas`. -/
def mkDatas (pos : Nat → Int) : Nat → List (List ℚ) → List ℚ → List InstData
  | i, lb :: lbs, c :: cs => ⟨lb, c, pos i⟩ :: mkDatas pos (i + 1) lbs cs
  | _, _, _ => []

/-- Outcome of a whole backtest run as seen from the policy: final
lookback buffers, the log of issued intents tagged with their bar index,
and a raised exception if any. -/
structure RunOut where
  lookbacks : List (List ℚ)
  log : List (Nat × Intent)
  err : Option String

/-- Drive `Agent.next` over the remaining bars, starting at bar index `k`
with the given lookback buffers.  `cashO`/`posO` are the broker cash and
the per-instrument position size at each bar, owned and updated by the
external engine between bars.  An exception aborts the run. -/
def Agent.runFrom (p : AgentParams) (cls : String → Nat × ℚ)
    (cashO : Nat → ℚ) (posO : Nat → Nat → Int) :
    Nat → List (List ℚ) → List (List ℚ) → RunOut
  | _, lbs, [] => ⟨lbs, [], none⟩
  | k, lbs, closes :: rest =>
    let out := Agent.next p cls (cashO k) (mkDatas (posO k) 0 lbs closes)
    match out.err with
    | some e => ⟨out.lookbacks, out.intents.map (fun a => (k, a)), some e⟩
    | none =>
      let tail := Agent.runFrom p cls cashO posO (k + 1) out.lookbacks rest
      ⟨tail.lookbacks, out.intents.map (fun a => (k, a)) ++ tail.log, tail.err⟩

/-- A whole backtest run over `n` instruments: every lookback buffer
starts empty and each bar appends exactly one close per instrument. -/
def Agent.run (p : AgentParams) (cls : String → Nat × ℚ)
    (cashO : Nat → ℚ) (posO : Nat → Nat → Int) (n : Nat)
    (bars : List (List ℚ)) : RunOut :=
  Agent.runFrom p cls cashO posO 0 (List.replicate n []) bars

/-- What the external engine hands back to `run_backtest` when
`cerebro.run()` completes: the portfolio value snapshots and each
registered analyzer's output. -/
structure EngineOut where
  initial_value : ℚ
  final_value : ℚ
  sharpe : PyVal
  drawdown : PyVal
  trades : PyVal
  returnsA : PyVal
  calmar : PyVal
  sqn : PyVal
  annual : PyVal

/-- The `results_data["results"]` dict literal of `run_backtest`, with
entries in source order; only the `win_rate_pct` and `profit_factor`
entries can raise, and `win_rate_pct` is evaluated first, as in the
source. -/
def buildResults (eo : EngineOut) : Except String (List (String × PyVal)) := do
  let portfolioReturnPct : ℚ :=
    if eo.initial_value ≠ 0 then
      (eo.final_value - eo.initial_value) / eo.initial_value * 100
    else 0
  let wr ← win_rate_pct eo.trades
  let pf ← profit_factor eo.trades
  .ok [("initial_value", .vfloat eo.initial_value),
    ("final_value", .vfloat eo.final_value),
    ("portfolio_return_pct", .vfloat portfolioReturnPct),
    ("portfolio_net_pnl", .vfloat (eo.final_value - eo.initial_value)),
    ("annualized_return_pct", safe_get eo.returnsA ["rannually"] .vnone),
    ("sharpe_ratio", safe_get eo.sharpe ["sharperatio"] .vnone),
    ("calmar_ratio", safe_get eo.calmar ["calmar"] .vnone),
    ("sqn", safe_get eo.sqn ["sqn"] .vnone),
    ("max_drawdown_pct", safe_get eo.drawdown ["max", "drawdown"] .vnone),
    ("max_drawdown_money", safe_get eo.drawdown ["max", "moneydown"] .vnone),
    ("max_drawdown_duration_bars", safe_get eo.drawdown ["max", "len"] .vnone),
    ("total_trades", safe_get eo.trades ["total", "total"] (.vint 0)),
    ("trades_open", safe_get eo.trades ["total", "open"] (.vint 0)),
    ("trades_closed", safe_get eo.trades ["total", "closed"] (.vint 0)),
    ("win_trades", safe_get eo.trades ["won", "total"] (.vint 0)),
    ("loss_trades", safe_get eo.trades ["lost", "total"] (.vint 0)),
    ("win_rate_pct", wr),
    ("total_net_pnl", safe_get eo.trades ["pnl", "net", "total"] (.vint 0)),
    ("average_win_pnl", safe_get eo.trades ["won", "pnl", "average"] (.vint 0)),
    ("average_loss_pnl", safe_get eo.trades ["lost", "pnl", "average"] (.vint 0)),
    ("profit_factor", pf),
    ("max_consecutive_wins", safe_get eo.trades ["streak", "won", "longest"] (.vint 0)),
    ("max_consecutive_losses", safe_get eo.trades ["streak", "lost", "longest"] (.vint 0)),
    ("average_trade_duration_bars", safe_get eo.trades ["len", "average"] .vnone),
    ("annual_returns", eo.annual)]

/-- The `results_data` record of `run_backtest`: parameters (symbols and
date range) recorded up front, the flattened results, and the `error`
field. -/
structure RunRecord where
  symbols : List String
  start_date : String
  end_date : String
  results : List (String × PyVal)
  error : Option String

/-- `run_backtest` from `runner.py`: the whole body runs under one
`try/except` that, on any exception, stores its string form into the
`error` field of the already-parameterised record and re-raises.  The
engine (data loading, `cerebro.run()`, analyzer retrieval) is the
external collaborator, abstracted as an outcome `engine`; the result
reduction is `buildResults`.  The second component is the re-raised
exception (`none` when the call returns normally). -/
def run_backtest (symbols : List String) (start_date end_date : String)
    (engine : Except String EngineOut) : RunRecord × Option String :=
  let base : RunRecord := ⟨symbols, start_date, end_date, [], none⟩
  match engine with
  | .error e => ({ base with error := some e }, some e)
  | .ok eo =>
    match buildResults eo with
    | .error e => ({ base with error := some e }, some e)
    | .ok res => ({ base with results := res }, none)

/-- The `__main__` block of `runner.py`: run the backtest and serialize
the record (to `OUTPUT_DIR/output.json` or stdout — both are the
abstract `serialize` collaborator); any exception escaping either step is
caught, `exit_code` is set to `1`, and the process exits with it;
otherwise it exits with `0`. -/
def scriptExit (symbols : List String) (start_date end_date : String)
    (engine : Except String EngineOut)
    (serialize : RunRecord → Except String String) : Nat :=
  match run_backtest symbols start_date end_date engine with
  | (_, some _) => 1
  | (rd, none) =>
    match serialize rd with
    | .ok _ => 0
    | .error _ => 1

/-- The feature text `Agent.next` builds for instrument `d` on the
current bar (abbreviation for statements). -/
def Agent.feature (p : AgentParams) (d : InstData) : String :=
  featureText (pyReturns (pyLastSlice p.seq_length (d.lookback ++ [d.close0])))

/-- Parameters, classifier and instrument state used by the concrete
counterexample and witness bars: `seq_length = 2`, `threshold = 0.6`,
`position_size = 0.15`. -/
def cxParams : AgentParams := ⟨2, 3 / 5, 3 / 20⟩

/-- A classifier stub that always predicts up(2) with confidence 0.9. -/
def cxClsUp : String → Nat × ℚ := fun _ => (2, 9 / 10)

/-- A classifier stub that always predicts down(0) with confidence 0.9. -/
def cxClsDown : String → Nat × ℚ := fun _ => (0, 9 / 10)

/-- A classifier stub whose confidence 0.5 never exceeds the 0.6
threshold. -/
def cxClsLow : String → Nat × ℚ := fun _ => (1, 1 / 2)

/-- Flat instrument: one buffered close, no position, current close 2000 —
so `int(10000 * 0.15 / 2000) == 0`. -/
def cxExpensive : InstData := ⟨[100], 2000, 0⟩

/-- Instrument with an affordable close 100 and no position. -/
def cxCheap : InstData := ⟨[100], 100, 0⟩

/-- Instrument with an open position of 3 shares. -/
def cxHeld : InstData := ⟨[100], 105, 3⟩

/-- A realistic trade-analyzer output after one closed winning trade:
`lost.pnl.total` is present and equal to `0.0`. -/
def taAllWon : PyVal :=
  .vdict [("total", .vdict [("total", .vint 1), ("open", .vint 0), ("closed", .vint 1)]),
    ("won", .vdict [("total", .vint 1), ("pnl", .vdict [("total", .vfloat 5)])]),
    ("lost", .vdict [("total", .vint 0), ("pnl", .vdict [("total", .vfloat 0)])])]

/-- A realistic trade-analyzer output of a run with no trades at all:
only `total.total` was ever initialised; `total.closed` and the pnl
subtrees are absent. -/
def taNoTrades : PyVal :=
  .vdict [("total", .vdict [("total", .vint 0)])]

/-- A trade-analyzer output with a genuine zero at `lost.pnl.total`,
used to exhibit what the `profit_factor` guard actually observes. -/
def taZeroLost : PyVal :=
  .vdict [("won", .vdict [("pnl", .vdict [("total", .vfloat 7)])]),
    ("lost", .vdict [("total", .vint 2), ("pnl", .vdict [("total", .vfloat 0)])])]

theorem pathBad_vnone (keys : List String) : pathBad .vnone keys = true := by
  cases keys <;> rfl

/-- Characterization of `safe_get`: it returns the declared default
exactly on broken paths and the value at the end of the path otherwise. -/
theorem safe_get_char (keys : List String) (a d : PyVal) :
    safe_get a keys d = if pathBad a keys then d else pathVal a keys := by
  induction keys generalizing a with
  | nil =>
    cases a <;>
      simp [safe_get, safe_getLoop, pathBad, pathVal, PyVal.isNone, PyVal.isNan]
  | cons k rest ih =>
    cases ha : a.isNone with
    | true =>
      have hn : a = .vnone := by cases a <;> simp_all [PyVal.isNone]
      subst hn
      simp [safe_get, PyVal.isNone, pathBad_vnone]
    | false =>
      cases hv : (lookStep a k).isNone with
      | true =>
        have hn : lookStep a k = .vnone := by
          cases h2 : lookStep a k <;> simp_all [PyVal.isNone]
        simp [safe_get, safe_getLoop, pathBad, ha, hn, pathBad_vnone, PyVal.isNone]
      | false =>
        have hrec := ih (lookStep a k)
        simp only [safe_get, hv, if_neg, Bool.false_eq_true, ite_false] at hrec
        simp [safe_get, safe_getLoop, pathBad, pathVal, ha, hv, hrec]

/-- C5: for every nested analysis structure, every key path and every
declared default, `safe_get` returns the declared default whenever any
key in the path is missing, whenever a traversed value is `None`, or
whenever the final value is a NaN float, and otherwise returns the value
found at the end of the path.  The embedded `safe_get` is a total
function — every primitive it uses (`dict.get`, `getattr` with a
default) is non-raising, so no exception can escape it. -/
theorem claimC5_safe_get_default :
    ∀ (analysis : PyVal) (keys : List String) (default : PyVal),
      safe_get analysis keys default =
        if pathBad analysis keys then default else pathVal analysis keys :=
  fun analysis keys default => safe_get_char keys analysis default

/-- C10 counterexample: the claim asserts that the profit-factor
denominator check observes genuine zero values.  On `taZeroLost`, the
path `lost.pnl.total` holds a genuine, present `0.0`, yet the guard's
lookup `safe_get(ta, ['lost', 'pnl5', 'total'])` yields `None` (it
queries the misspelled key `pnl5`), so the guard does not observe the
zero and the computation divides by it, raising `ZeroDivisionError`
instead of yielding `None`. -/
theorem claimC10_counterexample :
    pathBad taZeroLost ["lost", "pnl", "total"] = false ∧
    pathVal taZeroLost ["lost", "pnl", "total"] = .vfloat 0 ∧
    safe_get taZeroLost ["lost", "pnl5", "total"] .vnone = .vnone ∧
    profit_factor taZeroLost = .error "ZeroDivisionError" :=
  ⟨rfl, rfl, rfl, rfl⟩

/-- C10 (amended): `safe_get` returns a value actually present at the
end of the path even when it is falsy but not `None` (`0`, `0.0`,
`False`): the declared default is substituted only on broken paths
(missing key, `None`, NaN final float), never for a present zero.  The
win-rate denominator check therefore observes a genuine zero
`total.closed` and yields `0`; the profit-factor denominator check,
however, queries the misspelled path `lost.pnl5.total`, so whenever
`pnl5` is absent under `lost` the guard observes the default `None`
rather than any genuine value of `lost.pnl.total`. -/
theorem claimC10_safe_get_falsy :
    (∀ (a : PyVal) (keys : List String) (d : PyVal),
       pathBad a keys = false → safe_get a keys d = pathVal a keys) ∧
    (∀ ta : PyVal, pathBad ta ["total", "closed"] = false →
       pathVal ta ["total", "closed"] = .vint 0 ∨
         pathVal ta ["total", "closed"] = .vfloat 0 →
       win_rate_pct ta = .ok (.vint 0)) ∧
    (∀ (ta d : PyVal), (lookStep (lookStep ta "lost") "pnl5").isNone = true →
       safe_get ta ["lost", "pnl5", "total"] d = d) := by
  refine ⟨?_, ?_, ?_⟩
  · intro a keys d h
    rw [safe_get_char, h]
    rfl
  · intro ta hb hv
    have hg : safe_get ta ["total", "closed"] .vnone =
        pathVal ta ["total", "closed"] := by
      rw [safe_get_char, hb]
      rfl
    rcases hv with hv | hv <;> simp only [win_rate_pct, hg, hv] <;> rfl
  · intro ta d h
    rw [safe_get_char]
    have hbad : pathBad ta ["lost", "pnl5", "total"] = true := by
      have hn : lookStep (lookStep ta "lost") "pnl5" = .vnone := by
        cases h2 : lookStep (lookStep ta "lost") "pnl5" <;>
          simp_all [PyVal.isNone]
      simp [pathBad, hn, PyVal.isNone]
    rw [hbad]
    rfl

/-- C10 witness: a present, falsy `total.closed == 0` is returned by
`safe_get` as the genuine `0` (not the default `1`), and the win-rate
guard then yields `0`. -/
theorem claimC10_witness :
    safe_get (.vdict [("total", .vdict [("closed", .vint 0)])])
        ["total", "closed"] (.vint 1) = .vint 0 ∧
    win_rate_pct (.vdict [("total", .vdict [("closed", .vint 0)])]) =
      .ok (.vint 0) := by
  constructor
  · exact (claimC10_safe_get_falsy.1
      (.vdict [("total", .vdict [("closed", .vint 0)])])
      ["total", "closed"] (.vint 1) rfl).trans rfl
  · exact claimC10_safe_get_falsy.2.1
      (.vdict [("total", .vdict [("closed", .vint 0)])]) rfl (Or.inl rfl)

/-- C3: the claim states that `profit_factor` is `None` whenever the
denominator `lost.pnl.total` is `0` or absent and that the computation
never raises.  The source guard queries the misspelled path
`lost.pnl5.total` (always absent, hence `None != 0` is `True`), so the
guard is always passed: on a run whose closed trades all won
(`lost.pnl.total` present and `0.0`) the division raises
`ZeroDivisionError`; on a run with no trades (`lost.pnl.total` absent)
the denominator falls back to the default `1` and the field is `0.0`
rather than `None`. -/
theorem claimC3_profit_factor_bug :
    profit_factor taAllWon = .error "ZeroDivisionError" ∧
    profit_factor taNoTrades = .ok (.vfloat 0) ∧
    (.ok (.vfloat 0) : Except String PyVal) ≠ .ok .vnone := by
  refine ⟨rfl, ?_, ?_⟩
  · have h : profit_factor taNoTrades =
        .ok (.vfloat |((0 : Int) : ℚ) / ((1 : Int) : ℚ)|) := rfl
    rw [h]
    norm_num
  · intro h
    exact PyVal.noConfusion (Except.ok.inj h)

/-- C4: the claim states that `win_rate_pct` is `0` when the number of
closed trades is `0`, including when `total.closed` is absent, and that
the computation never raises.  On the trade-analyzer output of a run
with no trades, `total.closed` is absent, the guard's lookup
`safe_get(ta, ['total','closed'])` yields `None`, and the comparison
`None > 0` raises `TypeError` in Python 3. -/
theorem claimC4_win_rate_bug :
    win_rate_pct taNoTrades = .error "TypeError" ∧
    safe_get taNoTrades ["total", "closed"] .vnone = .vnone :=
  ⟨rfl, rfl⟩

/-- C9: whenever the engine (setup/execution) or the result reduction
raises, `run_backtest` records the exception's string form in the
`error` field of the record whose parameters were filled in up front,
re-raises, and the process exits with status `1`; when the backtest and
the serialization both complete cleanly the process exits with status
`0`. -/
theorem claimC9_error_flow :
    ∀ (symbols : List String) (sd ed : String)
      (engine : Except String EngineOut)
      (serialize : RunRecord → Except String String),
    (∀ e, engine = .error e →
       (run_backtest symbols sd ed engine).1.error = some e ∧
       (run_backtest symbols sd ed engine).1.symbols = symbols ∧
       (run_backtest symbols sd ed engine).1.start_date = sd ∧
       (run_backtest symbols sd ed engine).1.end_date = ed ∧
       (run_backtest symbols sd ed engine).2 = some e ∧
       scriptExit symbols sd ed engine serialize = 1) ∧
    (∀ eo e, engine = .ok eo → buildResults eo = .error e →
       (run_backtest symbols sd ed engine).1.error = some e ∧
       (run_backtest symbols sd ed engine).2 = some e ∧
       scriptExit symbols sd ed engine serialize = 1) ∧
    (∀ eo res out, engine = .ok eo → buildResults eo = .ok res →
       serialize (run_backtest symbols sd ed engine).1 = .ok out →
       (run_backtest symbols sd ed engine).2 = none ∧
       scriptExit symbols sd ed engine serialize = 0) := by
  intro symbols sd ed engine serialize
  refine ⟨?_, ?_, ?_⟩
  · intro e he
    subst he
    simp [run_backtest, scriptExit]
  · intro eo e he hb
    subst he
    simp [run_backtest, scriptExit, hb]
  · intro eo res out he hb hs
    subst he
    simp only [run_backtest, hb] at hs ⊢
    simp [scriptExit, run_backtest, hb, hs]

/-- C9 witness: a concrete failing engine records and re-raises the
exception and the exit status is `1`. -/
theorem claimC9_witness :
    (run_backtest ["SPY"] "2023-01-01" "2024-12-31"
        (.error "IndexError")).1.error = some "IndexError" ∧
    (run_backtest ["SPY"] "2023-01-01" "2024-12-31"
        (.error "IndexError")).2 = some "IndexError" ∧
    scriptExit ["SPY"] "2023-01-01" "2024-12-31" (.error "IndexError")
      (fun _ => .ok "written") = 1 := by
  have h := (claimC9_error_flow ["SPY"] "2023-01-01" "2024-12-31"
    (.error "IndexError") (fun _ => .ok "written")).1 "IndexError" rfl
  exact ⟨h.1, h.2.2.2.2.1, h.2.2.2.2.2⟩

theorem nextOne_short (p : AgentParams) (cls : String → Nat × ℚ) (cash : ℚ)
    (i : Nat) (d : InstData) (sv : Option Int)
    (h : d.lookback.length + 1 < p.seq_length) :
    Agent.nextOne p cls cash i d sv =
      ⟨d.lookback ++ [d.close0], none, [], [], sv, none⟩ := by
  simp [Agent.nextOne, h]

theorem nextOne_long (p : AgentParams) (cls : String → Nat × ℚ) (cash : ℚ)
    (i : Nat) (d : InstData) (sv : Option Int)
    (h : p.seq_length ≤ d.lookback.length + 1) :
    Agent.nextOne p cls cash i d sv =
      ⟨d.lookback ++ [d.close0],
        some (Agent.feature p d, cls (Agent.feature p d)),
        (Agent.trade p cash i d.position d.close0
          (cls (Agent.feature p d)).1 (cls (Agent.feature p d)).2 sv).1,
        (Agent.trade p cash i d.position d.close0
          (cls (Agent.feature p d)).1 (cls (Agent.feature p d)).2 sv).2.1,
        (Agent.trade p cash i d.position d.close0
          (cls (Agent.feature p d)).1 (cls (Agent.feature p d)).2 sv).2.2.1,
        (Agent.trade p cash i d.position d.close0
          (cls (Agent.feature p d)).1 (cls (Agent.feature p d)).2 sv).2.2.2⟩ := by
  have h2 : ¬ d.lookback.length + 1 < p.seq_length := by omega
  simp [Agent.nextOne, h2, Agent.feature]

/-- C1 (amended): on a bar where the buffer has reached `seq_length`,
with no open position, predicted class up(2) and confidence above the
threshold, the policy issues a close intent (printing a one-line trade
notice) exactly when the computed share count
`int(cash * position_size / close)` is positive; when that count is `0`
it issues nothing at all, and in either case no other intent is issued
for the instrument and no exception is raised. -/
theorem claimC1_buy_branch :
    ∀ (p : AgentParams) (cls : String → Nat × ℚ) (cash : ℚ) (i : Nat)
      (d : InstData) (sv : Option Int),
    p.seq_length ≤ d.lookback.length + 1 →
    d.position = 0 →
    (cls (Agent.feature p d)).1 = 2 →
    p.threshold < (cls (Agent.feature p d)).2 →
    (0 < pyInt (cash * p.position_size / d.close0) →
       (Agent.nextOne p cls cash i d sv).intents = [.closeIntent i] ∧
       (Agent.nextOne p cls cash i d sv).notices =
         [.buyLine i d.close0 (cls (Agent.feature p d)).2]) ∧
    (¬ 0 < pyInt (cash * p.position_size / d.close0) →
       (Agent.nextOne p cls cash i d sv).intents = [] ∧
       (Agent.nextOne p cls cash i d sv).notices = []) ∧
    (Agent.nextOne p cls cash i d sv).err = none := by
  intro p cls cash i d sv hlen hpos hpred hconf
  rw [nextOne_long p cls cash i d sv hlen]
  by_cases hs : 0 < pyInt (cash * p.position_size / d.close0)
  · simp [Agent.trade, hpos, hpred, hconf, hs]
  · simp [Agent.trade, hpos, hpred, hconf, hs]

/-- C1 counterexample: all conditions of the claim as stated hold (full
buffer, no position, predicted up(2), confidence 0.9 > 0.6), yet because
`int(10000 * 0.15 / 2000) == 0` the policy issues no close intent and
prints nothing. -/
theorem claimC1_counterexample :
    cxExpensive.position = 0 ∧
    cxParams.seq_length ≤ cxExpensive.lookback.length + 1 ∧
    (cxClsUp (Agent.feature cxParams cxExpensive)).1 = 2 ∧
    cxParams.threshold < (cxClsUp (Agent.feature cxParams cxExpensive)).2 ∧
    (Agent.nextOne cxParams cxClsUp 10000 0 cxExpensive none).intents = [] ∧
    (Agent.nextOne cxParams cxClsUp 10000 0 cxExpensive none).notices = [] := by
  refine ⟨rfl, by norm_num [cxParams, cxExpensive], rfl,
    by norm_num [cxParams, cxClsUp], ?_, ?_⟩ <;>
  · rw [nextOne_long cxParams cxClsUp 10000 0 cxExpensive none
      (by norm_num [cxParams, cxExpensive])]
    norm_num [Agent.trade, cxParams, cxClsUp, cxExpensive, pyInt]

/-- C1 witness: with an affordable close (share count 15 > 0) the close
intent and the notice are issued. -/
theorem claimC1_witness :
    (Agent.nextOne cxParams cxClsUp 10000 0 cxCheap none).intents =
      [.closeIntent 0] ∧
    (Agent.nextOne cxParams cxClsUp 10000 0 cxCheap none).notices =
      [.buyLine 0 100 (9 / 10)] := by
  have h := claimC1_buy_branch cxParams cxClsUp 10000 0 cxCheap none
    (by norm_num [cxParams, cxCheap]) rfl rfl (by norm_num [cxParams, cxClsUp])
  have hs : 0 < pyInt ((10000 : ℚ) * cxParams.position_size / cxCheap.close0) := by
    norm_num [cxParams, cxCheap, pyInt]
  exact ⟨(h.1 hs).1, (h.1 hs).2⟩

/-- C2: on a bar where the buffer has reached `seq_length`, with an open
position, predicted class down(0) and confidence above the threshold,
the policy executes `self.buy(data=d, size=size)`: when the function
local `size` is bound (necessarily by the no-position branch of an
earlier instrument in this same call) the buy intent carries that stale
binding; when it is unbound the statement raises `UnboundLocalError` and
no intent is issued.  Moreover `size` is (re)bound only by the
no-position/up-prediction branch, and since each call of `next` starts
with `size` unbound, a sell-branch firing on the first instrument always
raises. -/
theorem claimC2_sell_branch_size :
    (∀ (p : AgentParams) (cls : String → Nat × ℚ) (cash : ℚ) (i : Nat)
       (d : InstData) (s : Int),
       p.seq_length ≤ d.lookback.length + 1 →
       d.position ≠ 0 →
       (cls (Agent.feature p d)).1 = 0 →
       p.threshold < (cls (Agent.feature p d)).2 →
       (Agent.nextOne p cls cash i d (some s)).intents = [.buyIntent i s] ∧
       (Agent.nextOne p cls cash i d (some s)).err = none) ∧
    (∀ (p : AgentParams) (cls : String → Nat × ℚ) (cash : ℚ) (i : Nat)
       (d : InstData),
       p.seq_length ≤ d.lookback.length + 1 →
       d.position ≠ 0 →
       (cls (Agent.feature p d)).1 = 0 →
       p.threshold < (cls (Agent.feature p d)).2 →
       (Agent.nextOne p cls cash i d none).intents = [] ∧
       (Agent.nextOne p cls cash i d none).err = some "UnboundLocalError") ∧
    (∀ (p : AgentParams) (cls : String → Nat × ℚ) (cash : ℚ) (i : Nat)
       (d : InstData) (sv : Option Int),
       (Agent.nextOne p cls cash i d sv).sizeVar ≠ sv →
       p.seq_length ≤ d.lookback.length + 1 ∧ d.position = 0 ∧
       (cls (Agent.feature p d)).1 = 2 ∧
       p.threshold < (cls (Agent.feature p d)).2) ∧
    (∀ (p : AgentParams) (cls : String → Nat × ℚ) (cash : ℚ)
       (d : InstData) (ds : List InstData),
       p.seq_length ≤ d.lookback.length + 1 →
       d.position ≠ 0 →
       (cls (Agent.feature p d)).1 = 0 →
       p.threshold < (cls (Agent.feature p d)).2 →
       (Agent.next p cls cash (d :: ds)).err = some "UnboundLocalError") := by
  have hsell : ∀ (p : AgentParams) (cls : String → Nat × ℚ) (cash : ℚ)
      (i : Nat) (d : InstData) (sv : Option Int),
      p.seq_length ≤ d.lookback.length + 1 →
      d.position ≠ 0 →
      (cls (Agent.feature p d)).1 = 0 →
      p.threshold < (cls (Agent.feature p d)).2 →
      Agent.nextOne p cls cash i d sv =
        ⟨d.lookback ++ [d.close0],
          some (Agent.feature p d, cls (Agent.feature p d)),
          (match sv with
           | none => ([], [], none, some "UnboundLocalError")
           | some s => ([Intent.buyIntent i s],
               [Notice.sellLine i d.close0 (cls (Agent.feature p d)).2],
               some s, none) :
            List Intent × List Notice × Option Int × Option String).1,
          (match sv with
           | none => ([], [], none, some "UnboundLocalError")
           | some s => ([Intent.buyIntent i s],
               [Notice.sellLine i d.close0 (cls (Agent.feature p d)).2],
               some s, none) :
            List Intent × List Notice × Option Int × Option String).2.1,
          (match sv with
           | none => ([], [], none, some "UnboundLocalError")
           | some s => ([Intent.buyIntent i s],
               [Notice.sellLine i d.close0 (cls (Agent.feature p d)).2],
               some s, none) :
            List Intent × List Notice × Option Int × Option String).2.2.1,
          (match sv with
           | none => ([], [], none, some "UnboundLocalError")
           | some s => ([Intent.buyIntent i s],
               [Notice.sellLine i d.close0 (cls (Agent.feature p d)).2],
               some s, none) :
            List Intent × List Notice × Option Int × Option String).2.2.2⟩ := by
    intro p cls cash i d sv hlen hpos hpred hconf
    rw [nextOne_long p cls cash i d sv hlen]
    have hno : ¬ (d.position = 0 ∧ (cls (Agent.feature p d)).1 = 2 ∧
        p.threshold < (cls (Agent.feature p d)).2) := by
      rintro ⟨h1, -, -⟩
      exact hpos h1
    simp [Agent.trade, hno, hpos, hpred, hconf]
  refine ⟨?_, ?_, ?_, ?_⟩
  · intro p cls cash i d s hlen hpos hpred hconf
    rw [hsell p cls cash i d (some s) hlen hpos hpred hconf]
    exact ⟨rfl, rfl⟩
  · intro p cls cash i d hlen hpos hpred hconf
    rw [hsell p cls cash i d none hlen hpos hpred hconf]
    exact ⟨rfl, rfl⟩
  · intro p cls cash i d sv h
    by_cases hlen : d.lookback.length + 1 < p.seq_length
    · rw [nextOne_short p cls cash i d sv hlen] at h
      simp at h
    · have hlen2 : p.seq_length ≤ d.lookback.length + 1 := by omega
      rw [nextOne_long p cls cash i d sv hlen2] at h
      by_cases hc1 : d.position = 0 ∧ (cls (Agent.feature p d)).1 = 2 ∧
          p.threshold < (cls (Agent.feature p d)).2
      · exact ⟨hlen2, hc1.1, hc1.2.1, hc1.2.2⟩
      · exfalso
        apply h
        by_cases hc2 : d.position ≠ 0 ∧ (cls (Agent.feature p d)).1 = 0 ∧
            p.threshold < (cls (Agent.feature p d)).2
        · cases sv with
          | none => simp [Agent.trade, hc1, hc2]
          | some s => simp [Agent.trade, hc1, hc2]
        · simp [Agent.trade, hc1, hc2]
  · intro p cls cash d ds hlen hpos hpred hconf
    have hr := hsell p cls cash 0 d none hlen hpos hpred hconf
    simp [Agent.next, Agent.nextGo, hr]

/-- C2 witness: a held instrument with a down(0) prediction above
threshold, as the first instrument of the bar: the sell branch reads the
unbound `size`, raising `UnboundLocalError` with no intent issued. -/
theorem claimC2_witness :
    (Agent.nextOne cxParams cxClsDown 10000 0 cxHeld none).intents = [] ∧
    (Agent.nextOne cxParams cxClsDown 10000 0 cxHeld none).err =
      some "UnboundLocalError" := by
  exact claimC2_sell_branch_size.2.1 cxParams cxClsDown 10000 0 cxHeld
    (by norm_num [cxParams, cxHeld]) (by norm_num [cxHeld]) rfl
    (by norm_num [cxParams, cxClsDown])

theorem nextOne_lookback (p : AgentParams) (cls : String → Nat × ℚ)
    (cash : ℚ) (i : Nat) (d : InstData) (sv : Option Int) :
    (Agent.nextOne p cls cash i d sv).lookback = d.lookback ++ [d.close0] := by
  by_cases h : d.lookback.length + 1 < p.seq_length
  · rw [nextOne_short p cls cash i d sv h]
  · rw [nextOne_long p cls cash i d sv (by omega)]

theorem nextOne_mem_intents (p : AgentParams) (cls : String → Nat × ℚ)
    (cash : ℚ) (i : Nat) (d : InstData) (sv : Option Int) (a : Intent)
    (h : a ∈ (Agent.nextOne p cls cash i d sv).intents) :
    p.seq_length ≤ d.lookback.length + 1 := by
  by_cases hlen : d.lookback.length + 1 < p.seq_length
  · rw [nextOne_short p cls cash i d sv hlen] at h
    simp at h
  · omega

theorem nextGo_mem_intents (p : AgentParams) (cls : String → Nat × ℚ)
    (cash : ℚ) (L : Nat) :
    ∀ (ds : List InstData) (i : Nat) (sv : Option Int) (a : Intent),
    (∀ d ∈ ds, d.lookback.length = L) →
    a ∈ (Agent.nextGo p cls cash i sv ds).intents →
    p.seq_length ≤ L + 1 := by
  intro ds
  induction ds with
  | nil =>
    intro i sv a _ h
    simp [Agent.nextGo] at h
  | cons d rest ih =>
    intro i sv a hlen h
    have hd : d.lookback.length = L := hlen d (List.mem_cons_self d rest)
    cases her : (Agent.nextOne p cls cash i d sv).err with
    | some e =>
      simp [Agent.nextGo, her] at h
      have := nextOne_mem_intents p cls cash i d sv a h
      omega
    | none =>
      simp [Agent.nextGo, her] at h
      rcases h with h | h
      · have := nextOne_mem_intents p cls cash i d sv a h
        omega
      · exact ih (i + 1) _ a (fun x hx => hlen x (List.mem_cons_of_mem d hx)) h

theorem nextGo_mem_lookbacks (p : AgentParams) (cls : String → Nat × ℚ)
    (cash : ℚ) :
    ∀ (ds : List InstData) (i : Nat) (sv : Option Int) (lb2 : List ℚ),
    lb2 ∈ (Agent.nextGo p cls cash i sv ds).lookbacks →
    ∃ d ∈ ds, lb2 = d.lookback ++ [d.close0] := by
  intro ds
  induction ds with
  | nil =>
    intro i sv lb2 h
    simp [Agent.nextGo] at h
  | cons d rest ih =>
    intro i sv lb2 h
    cases her : (Agent.nextOne p cls cash i d sv).err with
    | some e =>
      simp [Agent.nextGo, her] at h
      exact ⟨d, List.mem_cons_self d rest, by rw [h, nextOne_lookback]⟩
    | none =>
      simp [Agent.nextGo, her] at h
      rcases h with h | h
      · exact ⟨d, List.mem_cons_self d rest, by rw [h, nextOne_lookback]⟩
      · obtain ⟨d2, hd2, he⟩ := ih (i + 1) _ lb2 h
        exact ⟨d2, List.mem_cons_of_mem d hd2, he⟩

theorem mkDatas_mem (pos : Nat → Int) :
    ∀ (lbs : List (List ℚ)) (closes : List ℚ) (i : Nat) (d : InstData),
    d ∈ mkDatas pos i lbs closes → d.lookback ∈ lbs := by
  intro lbs
  induction lbs with
  | nil =>
    intro closes i d h
    cases closes <;> simp [mkDatas] at h
  | cons lb rest ih =>
    intro closes i d h
    cases closes with
    | nil => simp [mkDatas] at h
    | cons c cs =>
      simp [mkDatas] at h
      rcases h with h | h
      · rw [h]
        exact List.mem_cons_self _ _
      · exact List.mem_cons_of_mem _ (ih cs (i + 1) d h)

theorem runFrom_log_bound (p : AgentParams) (cls : String → Nat × ℚ)
    (cashO : Nat → ℚ) (posO : Nat → Nat → Int) :
    ∀ (bars : List (List ℚ)) (k : Nat) (lbs : List (List ℚ)),
    (∀ lb ∈ lbs, lb.length = k) →
    ∀ (j : Nat) (a : Intent),
    (j, a) ∈ (Agent.runFrom p cls cashO posO k lbs bars).log →
    p.seq_length ≤ j + 1 := by
  intro bars
  induction bars with
  | nil =>
    intro k lbs _ j a h
    simp [Agent.runFrom] at h
  | cons closes rest ih =>
    intro k lbs hlen j a h
    have hds : ∀ d ∈ mkDatas (posO k) 0 lbs closes, d.lookback.length = k :=
      fun d hd => hlen d.lookback (mkDatas_mem (posO k) lbs closes 0 d hd)
    cases her :
      (Agent.next p cls (cashO k) (mkDatas (posO k) 0 lbs closes)).err with
    | some e =>
      simp [Agent.runFrom, her] at h
      obtain ⟨hb, rfl⟩ := h
      exact nextGo_mem_intents p cls (cashO k) k _ 0 none a hds hb
    | none =>
      simp [Agent.runFrom, her] at h
      rcases h with ⟨hb, rfl⟩ | h
      · exact nextGo_mem_intents p cls (cashO k) k _ 0 none a hds hb
      · refine ih (k + 1) _ ?_ j a h
        intro lb hlb
        obtain ⟨d, hd, he⟩ :=
          nextGo_mem_lookbacks p cls (cashO k) _ 0 none lb hlb
        rw [he]
        simp only [List.length_append, List.length_singleton]
        rw [hds d hd]

/-- C6: while an instrument's buffer (after appending the current close)
is still shorter than `seq_length`, the loop body performs no model
inference, issues no intent and no notice, leaves the local `size`
binding untouched and raises nothing; consequently, over a whole run
starting from empty buffers, every intent logged at bar `k` satisfies
`seq_length ≤ k + 1`, i.e. no intent is ever issued before the buffer
reaches `seq_length` entries. -/
theorem claimC6_warmup_gate :
    (∀ (p : AgentParams) (cls : String → Nat × ℚ) (cash : ℚ) (i : Nat)
       (d : InstData) (sv : Option Int),
       d.lookback.length + 1 < p.seq_length →
       (Agent.nextOne p cls cash i d sv).inference = none ∧
       (Agent.nextOne p cls cash i d sv).intents = [] ∧
       (Agent.nextOne p cls cash i d sv).notices = [] ∧
       (Agent.nextOne p cls cash i d sv).sizeVar = sv ∧
       (Agent.nextOne p cls cash i d sv).err = none) ∧
    (∀ (p : AgentParams) (cls : String → Nat × ℚ) (cashO : Nat → ℚ)
       (posO : Nat → Nat → Int) (n : Nat) (bars : List (List ℚ))
       (k : Nat) (a : Intent),
       (k, a) ∈ (Agent.run p cls cashO posO n bars).log →
       p.seq_length ≤ k + 1) := by
  constructor
  · intro p cls cash i d sv h
    rw [nextOne_short p cls cash i d sv h]
    exact ⟨rfl, rfl, rfl, rfl, rfl⟩
  · intro p cls cashO posO n bars k a h
    refine runFrom_log_bound p cls cashO posO bars 0 (List.replicate n [])
      ?_ k a h
    intro lb hlb
    simp [List.eq_of_mem_replicate hlb]

/-- C6 witness: on the very first bar (buffer of length 1 < 2) the loop
body is inert. -/
theorem claimC6_witness :
    (Agent.nextOne cxParams cxClsUp 10000 0 ⟨[], 100, 0⟩ none).inference =
      none ∧
    (Agent.nextOne cxParams cxClsUp 10000 0 ⟨[], 100, 0⟩ none).intents =
      [] := by
  have h := claimC6_warmup_gate.1 cxParams cxClsUp 10000 0 ⟨[], 100, 0⟩ none
    (by norm_num [cxParams])
  exact ⟨h.1, h.2.1⟩

theorem trade_low_conf (p : AgentParams) (cash : ℚ) (i : Nat)
    (position : Int) (close0 : ℚ) (pred : Nat) (conf : ℚ) (sv : Option Int)
    (h : conf ≤ p.threshold) :
    Agent.trade p cash i position close0 pred conf sv = ([], [], sv, none) := by
  have h1 : ¬ (position = 0 ∧ pred = 2 ∧ p.threshold < conf) := by
    rintro ⟨-, -, hc⟩
    exact absurd hc (not_lt.mpr h)
  have h2 : ¬ (position ≠ 0 ∧ pred = 0 ∧ p.threshold < conf) := by
    rintro ⟨-, -, hc⟩
    exact absurd hc (not_lt.mpr h)
  simp [Agent.trade, h1, h2]

theorem nextOne_low_conf (p : AgentParams) (cls : String → Nat × ℚ)
    (cash : ℚ) (i : Nat) (d : InstData) (sv : Option Int)
    (hcls : ∀ s, (cls s).2 ≤ p.threshold) :
    (Agent.nextOne p cls cash i d sv).intents = [] ∧
    (Agent.nextOne p cls cash i d sv).sizeVar = sv ∧
    (Agent.nextOne p cls cash i d sv).err = none := by
  by_cases hlen : d.lookback.length + 1 < p.seq_length
  · rw [nextOne_short p cls cash i d sv hlen]
    exact ⟨rfl, rfl, rfl⟩
  · rw [nextOne_long p cls cash i d sv (by omega)]
    rw [trade_low_conf p cash i d.position d.close0 _ _ sv
      (hcls (Agent.feature p d))]
    exact ⟨rfl, rfl, rfl⟩

theorem nextGo_low_conf (p : AgentParams) (cls : String → Nat × ℚ)
    (cash : ℚ) (hcls : ∀ s, (cls s).2 ≤ p.threshold) :
    ∀ (ds : List InstData) (i : Nat) (sv : Option Int),
    (Agent.nextGo p cls cash i sv ds).intents = [] ∧
    (Agent.nextGo p cls cash i sv ds).err = none := by
  intro ds
  induction ds with
  | nil =>
    intro i sv
    exact ⟨rfl, rfl⟩
  | cons d rest ih =>
    intro i sv
    obtain ⟨hi, hs, he⟩ := nextOne_low_conf p cls cash i d sv hcls
    have htail := ih (i + 1) (Agent.nextOne p cls cash i d sv).sizeVar
    simp [Agent.nextGo, he, hi, htail.1, htail.2]

theorem runFrom_low_conf (p : AgentParams) (cls : String → Nat × ℚ)
    (cashO : Nat → ℚ) (posO : Nat → Nat → Int)
    (hcls : ∀ s, (cls s).2 ≤ p.threshold) :
    ∀ (bars : List (List ℚ)) (k : Nat) (lbs : List (List ℚ)),
    (Agent.runFrom p cls cashO posO k lbs bars).log = [] ∧
    (Agent.runFrom p cls cashO posO k lbs bars).err = none := by
  intro bars
  induction bars with
  | nil =>
    intro k lbs
    exact ⟨rfl, rfl⟩
  | cons closes rest ih =>
    intro k lbs
    have hbar := nextGo_low_conf p cls (cashO k) hcls
      (mkDatas (posO k) 0 lbs closes) 0 none
    have htail := ih (k + 1)
      (Agent.next p cls (cashO k) (mkDatas (posO k) 0 lbs closes)).lookbacks
    have he : (Agent.next p cls (cashO k)
        (mkDatas (posO k) 0 lbs closes)).err = none := hbar.2
    have hi : (Agent.next p cls (cashO k)
        (mkDatas (posO k) 0 lbs closes)).intents = [] := hbar.1
    simp [Agent.runFrom, he, hi, htail.1, htail.2]

/-- C8: when the classifier's confidence never exceeds the threshold,
a whole run issues zero order intents and raises nothing, regardless of
the predicted class on each bar. -/
theorem claimC8_low_confidence_no_intents :
    ∀ (p : AgentParams) (cls : String → Nat × ℚ) (cashO : Nat → ℚ)
      (posO : Nat → Nat → Int) (n : Nat) (bars : List (List ℚ)),
    (∀ s, (cls s).2 ≤ p.threshold) →
    (Agent.run p cls cashO posO n bars).log = [] ∧
    (Agent.run p cls cashO posO n bars).err = none := by
  intro p cls cashO posO n bars hcls
  exact runFrom_low_conf p cls cashO posO hcls bars 0 (List.replicate n [])

/-- C8 witness: a three-bar run under a 0.5-confidence classifier and a
0.6 threshold issues no intents. -/
theorem claimC8_witness :
    (Agent.run cxParams cxClsLow (fun _ => 10000) (fun _ _ => 0) 1
      [[100], [101], [102]]).log = [] ∧
    (Agent.run cxParams cxClsLow (fun _ => 10000) (fun _ _ => 0) 1
      [[100], [101], [102]]).err = none := by
  exact claimC8_low_confidence_no_intents cxParams cxClsLow (fun _ => 10000)
    (fun _ _ => 0) 1 [[100], [101], [102]]
    (fun _ => by norm_num [cxParams, cxClsLow])

theorem pyReturns_length (recent : List ℚ) :
    (pyReturns recent).length = recent.length := by
  simp [pyReturns]

theorem pyReturns_getD (recent : List ℚ) (i : Nat) (h : i < recent.length) :
    (pyReturns recent).getD i 0 =
      if 0 < i then recent.getD i 0 / recent.getD (i - 1) 0 - 1 else 0 := by
  unfold pyReturns
  rw [List.getD_eq_getElem?_getD, List.getElem?_map, List.getElem?_range h]
  rfl

/-- C7: on a bar where the buffer (after appending the current close)
has at least `seq_length` entries, the policy runs the classifier on
exactly the most recent `seq_length` closes: `recent` is the final
segment of the buffer of length `seq_length`, the computed returns
satisfy `r[0] = 0` and `r[i] = recent[i]/recent[i-1] - 1` for `i > 0`,
and the feature handed to the classifier is the text
`"Price movements: "` followed by the space-joined 4-decimal-formatted
returns. -/
theorem claimC7_returns_feature :
    ∀ (p : AgentParams) (cls : String → Nat × ℚ) (cash : ℚ) (i : Nat)
      (d : InstData) (sv : Option Int),
    1 ≤ p.seq_length →
    p.seq_length ≤ d.lookback.length + 1 →
    (let lb := d.lookback ++ [d.close0]
     let recent := lb.drop (lb.length - p.seq_length)
     let rs := pyReturns recent
     (Agent.nextOne p cls cash i d sv).inference =
        some (featureText rs, cls (featureText rs)) ∧
     recent.length = p.seq_length ∧
     lb.take (lb.length - p.seq_length) ++ recent = lb ∧
     rs.length = p.seq_length ∧
     rs.getD 0 0 = 0 ∧
     (∀ j, 0 < j → j < p.seq_length →
        rs.getD j 0 = recent.getD j 0 / recent.getD (j - 1) 0 - 1) ∧
     featureText rs = "Price movements: " ++
        String.intercalate " " (rs.map fmt4)) := by
  intro p cls cash i d sv h1 hlen
  have hslice : pyLastSlice p.seq_length (d.lookback ++ [d.close0]) =
      (d.lookback ++ [d.close0]).drop
        ((d.lookback ++ [d.close0]).length - p.seq_length) := by
    unfold pyLastSlice
    rw [if_neg (by omega)]
  have hlb : (d.lookback ++ [d.close0]).length = d.lookback.length + 1 := by
    simp
  have hreclen :
      ((d.lookback ++ [d.close0]).drop
        ((d.lookback ++ [d.close0]).length - p.seq_length)).length =
      p.seq_length := by
    rw [List.length_drop, hlb]
    omega
  refine ⟨?_, hreclen, List.take_append_drop _ _, ?_, ?_, ?_, rfl⟩
  · rw [nextOne_long p cls cash i d sv hlen]
    simp [Agent.feature, hslice]
  · rw [pyReturns_length, hreclen]
  · rw [pyReturns_getD _ 0 (by omega)]
    simp
  · intro j hj hjlt
    rw [pyReturns_getD _ j (by omega)]
    rw [if_pos hj]

/-- C7 witness: with `seq_length = 2` and buffer `[100, 100]`, the
classifier is called on the feature of the returns of exactly those two
closes, whose values are `r[0] = 0` and `r[1] = 100/100 - 1`. -/
theorem claimC7_witness :
    (Agent.nextOne cxParams cxClsUp 10000 0 cxCheap none).inference =
      some (featureText (pyReturns [(100 : ℚ), 100]),
        cxClsUp (featureText (pyReturns [(100 : ℚ), 100]))) ∧
    (pyReturns [(100 : ℚ), 100]).getD 0 0 = 0 ∧
    (pyReturns [(100 : ℚ), 100]).getD 1 0 = (100 : ℚ) / 100 - 1 := by
  have h := claimC7_returns_feature cxParams cxClsUp 10000 0 cxCheap none
    (by norm_num [cxParams]) (by norm_num [cxParams, cxCheap])
  exact ⟨h.1, h.2.2.2.2.1, h.2.2.2.2.2.1 1 (by norm_num)
    (by norm_num [cxParams])⟩
